import Mathlib

/-!
Verification of the search indexing and relevance-ranking engine of the
Browser-V2 repository (src/utils/searchIndex.ts, class SearchIndexManager).

Strings are modelled as lists of characters (`Str`); JavaScript string
numbers are modelled as rationals where the source only adds, multiplies
and compares them, and as reals where `Math.log` enters (the base score).
Each definition is a direct translation of the corresponding source
function; definitions whose names start with `spec` restate the prose of
the specification and are compared with the source translations.
-/

namespace BrowserSearch

/-- Character lists stand for JavaScript strings (UTF-16 units). -/
abbrev Str := List Char

/-- One character's image under `String.prototype.toLowerCase` (Unicode
Default Case Conversion, full mappings).  ASCII `A`-`Z` shift by 32; the two
code points whose lowercase contains an ASCII letter are mapped exactly:
U+212A KELVIN SIGN becomes `k`, and U+0130 LATIN CAPITAL LETTER I WITH DOT
ABOVE becomes `i` followed by U+0307 COMBINING DOT ABOVE.  Every other
character lowercases within its own script, never into ASCII, and is
modelled as itself — an approximation that cannot create or destroy the
ASCII-alphanumeric query tokens the engine filters on. -/
def jsLowerChar (c : Char) : Str :=
  if 65 ≤ c.toNat ∧ c.toNat ≤ 90 then [Char.ofNat (c.toNat + 32)]
  else if c.toNat = 8490 then ['k']
  else if c.toNat = 304 then ['i', Char.ofNat 775]
  else [c]

/-- The model of `String.prototype.toLowerCase`. -/
def lower (s : Str) : Str := s.flatMap jsLowerChar

/-- Whitespace characters recognised by the model (the common JS `\s` members;
any further JS whitespace is non-alphanumeric and is replaced by a plain space
by `replaceNonAlnum`, which leads to the same token split). -/
def isWsChar (c : Char) : Bool :=
  c = ' ' || c = '\t' || c = '\n' || c = '\r'

/-- Whether `needle` stands at the front of `hay`. -/
def startsWithChars : Str → Str → Bool
  | [], _ => true
  | _ :: _, [] => false
  | a :: as, b :: bs => a = b && startsWithChars as bs

/-- The model of `hay.includes(needle)` for JS strings. -/
def includesChars (needle : Str) : Str → Bool
  | [] => needle.isEmpty
  | c :: rest => startsWithChars needle (c :: rest) || includesChars needle rest

/-- The model of `hay.indexOf(needle)` for JS strings (`none` for `-1`). -/
def idxOfChars (needle : Str) : Str → Option Nat
  | [] => if needle.isEmpty then some 0 else none
  | c :: rest =>
    if startsWithChars needle (c :: rest) then some 0
    else (idxOfChars needle rest).map (· + 1)

/-!
### Edit distance (source lines 307-329)

`levenshteinSimilarity` fills a dynamic-programming matrix with
`matrix[0][i] = i`, `matrix[j][0] = j` and
`matrix[j][i] = min(matrix[j][i-1] + 1, matrix[j-1][i] + 1, matrix[j-1][i-1] + cost)`,
and reads off `matrix[b.length][a.length]`.  `levDist` is that recurrence as a
recursive function on the two strings (the matrix is its memoised evaluation):
`levDist a b` is the value `matrix[|b|][|a|]` for the inputs `a`, `b`.
-/

/-- Inner recursion for `levDist`: `levDistAux x fxs tailLen ys` is the
distance between `x :: xs` and `ys`, where `fxs` computes distances from `xs`
and `tailLen = |xs|`. -/
def levDistAux (x : Char) (fxs : Str → Nat) (tailLen : Nat) : Str → Nat
  | [] => tailLen + 1
  | y :: ys =>
    min (min (levDistAux x fxs tailLen ys + 1) (fxs (y :: ys) + 1))
      (fxs ys + (if x = y then 0 else 1))

/-- Unit-cost Levenshtein distance: the value computed by the DP matrix inside
`levenshteinSimilarity`. -/
def levDist : Str → Str → Nat
  | [], ys => ys.length
  | x :: xs, ys => levDistAux x (levDist xs) xs.length ys

/-- Normalized Levenshtein similarity (source lines 307-329):
`(max(len a, len b) - dist) / max(len a, len b)`, with the two guard clauses
for empty inputs. -/
def levenshteinSimilarity (a b : Str) : ℚ :=
  if a.length = 0 then (if b.length = 0 then 1 else 0)
  else if b.length = 0 then 0
  else
    let maxLength : ℚ := max a.length b.length
    (maxLength - levDist a b) / maxLength

/-!
### Data model (source lines 1-35 and `@/utils/storage`)
-/

/-- The `'history' | 'bookmark'` discriminator. -/
inductive ItemType where
  | history : ItemType
  | bookmark : ItemType
deriving DecidableEq

/-- A history record from the Record Source. -/
structure HistoryItem where
  id : String
  title : Str
  url : Str
  visitCount : Nat
  timestamp : Int
deriving DecidableEq

/-- A bookmark record from the Record Source.  `tags` is `none` when the
field is absent (JS `undefined`). -/
structure BookmarkItem where
  id : String
  title : Str
  url : Str
  folder : Str
  tags : Option (List Str)
  dateAdded : Int
deriving DecidableEq

/-- A source record tagged with its type. -/
inductive SourceItem where
  | history : HistoryItem → SourceItem
  | bookmark : BookmarkItem → SourceItem
deriving DecidableEq

/-- An entry of the search index (interface `SearchIndexItem`).  The numeric
type of `score` is a parameter: the scorer treats it as a plain number (`ℚ`),
while `createIndexItem` computes it with `Math.log` (`ℝ`). -/
structure SearchIndexItem (S : Type) where
  id : String
  type : ItemType
  title : Str
  url : Str
  content : Str
  keywords : List Str
  score : S
  lastUpdated : Int
deriving DecidableEq

/-!
### Scorer (source lines 240-304, `calculateMatch` and `calculateFuzzyMatch`)
-/

/-- `calculateFuzzyMatch` (source lines 294-304): the maximum normalized
Levenshtein similarity of the term against title, url and every keyword,
each lowercased. -/
def calculateFuzzyMatch (term : Str) (item : SearchIndexItem ℚ) : ℚ :=
  (item.title :: item.url :: item.keywords).foldl
    (fun maxScore target => max maxScore (levenshteinSimilarity term (lower target))) 0

/-- `if (!matchedFields.includes(tag)) matchedFields.push(tag)`. -/
def pushIfNew (fields : List String) (tag : String) : List String :=
  if tag ∈ fields then fields else fields ++ [tag]

/-- The body of `calculateMatch`'s per-term loop (source lines 248-279):
given the running `(totalScore, matchedFields)` accumulator and one query
term, the accumulator after that term. -/
def termStep (item : SearchIndexItem ℚ) (fuzzyMatch : Bool)
    (acc : ℚ × List String) (term : Str) : ℚ × List String :=
  let termScore : ℚ := 0
  let st1 :=
    if includesChars term (lower item.title) then (termScore + 3.0, pushIfNew acc.2 "title")
    else (termScore, acc.2)
  let st2 :=
    if includesChars term (lower item.url) then (st1.1 + 2.0, pushIfNew st1.2 "url")
    else st1
  let st3 :=
    if item.keywords.any (fun keyword => includesChars term keyword) then
      (st2.1 + 1.5, pushIfNew st2.2 "keywords")
    else st2
  let st4 :=
    if fuzzyMatch ∧ st3.1 = 0 then
      let fuzzyScore := calculateFuzzyMatch term item
      if fuzzyScore > 0.7 then (st3.1 + fuzzyScore * 0.5, pushIfNew st3.2 "fuzzy")
      else st3
    else st3
  (acc.1 + st4.1, st4.2)

/-- The per-term loop of `calculateMatch`, started from `(0, [])`. -/
def termLoop (item : SearchIndexItem ℚ) (fuzzyMatch : Bool)
    (queryTerms : List Str) : ℚ × List String :=
  queryTerms.foldl (termStep item fuzzyMatch) (0, [])

/-- `calculateMatch` (source lines 240-291): the per-term loop, then the base
score multiplier, then the coverage bonus when more than one term was
supplied. -/
def calculateMatch (item : SearchIndexItem ℚ) (queryTerms : List Str)
    (fuzzyMatch : Bool) : ℚ × List String :=
  let r := termLoop item fuzzyMatch queryTerms
  let totalScore := r.1 * item.score
  let totalScore :=
    if 1 < queryTerms.length then
      let matchRatio : ℚ := (r.2.length : ℚ) / (queryTerms.length : ℚ)
      totalScore * (1 + matchRatio * 0.5)
    else totalScore
  (totalScore, r.2)

/-!
### Tokenization (source lines 152-168 and 231-237)
-/

/-- A lowercase ASCII letter or digit: what the regex `[^a-z0-9\s]` keeps
besides whitespace. -/
def isLowerAlnum (c : Char) : Bool :=
  decide ((97 ≤ c.toNat ∧ c.toNat ≤ 122) ∨ (48 ≤ c.toNat ∧ c.toNat ≤ 57))

/-- `.replace(/[^a-z0-9\s]/g, ' ')`. -/
def replaceNonAlnum (s : Str) : Str :=
  s.map (fun c => if isLowerAlnum c || isWsChar c then c else ' ')

/-- Splitter worker: `cur` is the (reversed) run of non-whitespace read so
far. -/
def tokensAux : Str → Str → List Str
  | cur, [] => if cur.isEmpty then [] else [cur.reverse]
  | cur, c :: rest =>
    if isWsChar c then
      if cur.isEmpty then tokensAux [] rest else cur.reverse :: tokensAux [] rest
    else tokensAux (c :: cur) rest

/-- The maximal non-whitespace runs of `s`: `.split(/\s+/)` with empty tokens
dropped (the source drops them right after splitting, by `length > 0` in
`normalizeQuery` and `length > 2` in `extractKeywords`). -/
def tokensOf (s : Str) : List Str := tokensAux [] s

/-- `normalizeQuery` (source lines 231-237). -/
def normalizeQuery (query : Str) : List Str :=
  tokensOf (replaceNonAlnum (lower query))

/-- JS `String.prototype.trim` over the model's whitespace. -/
def trim (s : Str) : Str :=
  ((s.dropWhile (fun c => isWsChar c)).reverse.dropWhile (fun c => isWsChar c)).reverse

/-- The stop-word set of `extractKeywords` (source lines 156-159). -/
def stopWords : List Str :=
  [ "the", "a", "an", "and", "or", "but", "in", "on", "at", "to", "for", "of",
    "with", "by", "http", "https", "www", "com", "org", "net", "edu",
    "gov" ].map String.data

/-- Deduplication keeping first occurrences (`[...new Set(words)]`);
`seen` accumulates the words already emitted. -/
def dedupAux : List Str → List Str → List Str
  | _, [] => []
  | seen, w :: ws =>
    if w ∈ seen then dedupAux seen ws else w :: dedupAux (w :: seen) ws

/-- `[...new Set(words)]`. -/
def dedupKeep (ws : List Str) : List Str := dedupAux [] ws

/-- `extractKeywords` (source lines 152-168): lowercase, strip
non-alphanumerics, split, filter short words and stop words, cap at 20,
deduplicate. -/
def extractKeywords (title url : Str) : List Str :=
  let text := lower (title ++ ' ' :: url)
  let words :=
    ((tokensOf (replaceNonAlnum text)).filter
      (fun word => decide (2 < word.length) && decide (word ∉ stopWords))).take 20
  dedupKeep words

/-!
### Index construction (source lines 107-178)
-/

/-- Hostname of an authority-with-path remainder: up to the first `/`, `?` or
`#`, after the last `@`, before a `:` port. -/
def hostnameOf (rest : Str) : Str :=
  let auth := rest.takeWhile (fun c => !(c = '/' || c = '?' || c = '#'))
  let afterAt := (auth.reverse.takeWhile (fun c => c ≠ '@')).reverse
  afterAt.takeWhile (fun c => c ≠ ':')

/-- `extractDomain` (source lines 171-178), modelled for `http`/`https` URLs;
any other input falls to the `catch` branch and yields the empty string.
Nothing in the claims depends on this value: it only feeds the unused
`content` field. -/
def extractDomain (url : Str) : Str :=
  if startsWithChars "http://".data url then
    let host := hostnameOf (url.drop 7)
    if startsWithChars "www.".data host then host.drop 4 else host
  else if startsWithChars "https://".data url then
    let host := hostnameOf (url.drop 8)
    if startsWithChars "www.".data host then host.drop 4 else host
  else []

/-- The `content` field: `` `${title} ${url} ${domain}` `` of the lowercased
parts. -/
def contentOf (title url : Str) : Str :=
  lower title ++ ' ' :: (lower url ++ ' ' :: lower (extractDomain url))

/-- The recency bonus of `createIndexItem` (source lines 134-137):
`max(0, 1 - daysSinceUpdate / 30) * 0.2` with
`daysSinceUpdate = (now - timestamp) / (1000*60*60*24)`. -/
noncomputable def recencyBonus (now timestamp : Int) : ℝ :=
  max 0 (1 - ((now : ℝ) - (timestamp : ℝ)) / (1000 * 60 * 60 * 24) / 30) * 0.2

/-- `createIndexItem` (source lines 107-149).  `now` stands for `Date.now()`.
The score starts at 1.0, history items add `Math.log(visitCount + 1) * 0.1`,
and every item adds the recency bonus. -/
noncomputable def createIndexItem (now : Int) (item : SourceItem) :
    SearchIndexItem ℝ :=
  match item with
  | .history h =>
    { id := h.id
      type := .history
      title := h.title
      url := h.url
      content := contentOf h.title h.url
      keywords := extractKeywords h.title h.url
      score := 1.0 + Real.log ((h.visitCount : ℝ) + 1) * 0.1 + recencyBonus now h.timestamp
      lastUpdated := now }
  | .bookmark b =>
    { id := b.id
      type := .bookmark
      title := b.title
      url := b.url
      content := contentOf b.title b.url
      keywords :=
        extractKeywords b.title b.url ++ [lower b.folder] ++ (b.tags.getD []).map lower
      score := 1.0 + recencyBonus now b.dateAdded
      lastUpdated := now }

/-- The number of tags of a record (0 for history records and for bookmarks
without a tag field). -/
def tagCount : SourceItem → Nat
  | .history _ => 0
  | .bookmark b => (b.tags.getD []).length

/-!
### Index store and rebuild (source lines 33-104)
-/

/-- The mutable state of `SearchIndexManager`: the id-keyed map (as an
insertion-ordered association list) and the last rebuild time. -/
structure IndexState where
  index : List (String × SearchIndexItem ℝ)
  lastIndexUpdate : Int

/-- `INDEX_UPDATE_INTERVAL = 5 * 60 * 1000`. -/
def INDEX_UPDATE_INTERVAL : Int := 5 * 60 * 1000

/-- `Map.prototype.set`: replace in place if the key exists, else append. -/
def setEntry (m : List (String × SearchIndexItem ℝ)) (k : String)
    (v : SearchIndexItem ℝ) : List (String × SearchIndexItem ℝ) :=
  if m.any (fun p => p.1 = k) then m.map (fun p => if p.1 = k then (k, v) else p)
  else m ++ [(k, v)]

/-- `updateIndex` (source lines 73-104).  The two fetches from the Record
Source are passed as `Except` values (`error` models a rejected promise).
The source clears the map, then fetches and inserts history items, then
bookmark items; a thrown error is caught after the `clear`, so the state at
the moment of the throw is kept, and `lastIndexUpdate` is only advanced when
both fetches succeed. -/
noncomputable def updateIndex (st : IndexState) (now : Int) (force : Bool)
    (histFetch : Except Unit (List HistoryItem))
    (bmFetch : Except Unit (List BookmarkItem)) : IndexState :=
  if force = false ∧ now - st.lastIndexUpdate < INDEX_UPDATE_INTERVAL then st
  else
    match histFetch with
    | .error _ => { st with index := [] }
    | .ok history =>
      let idx1 := history.foldl
        (fun m it => setEntry m it.id (createIndexItem now (.history it))) []
      match bmFetch with
      | .error _ => { st with index := idx1 }
      | .ok bookmarks =>
        let idx2 := bookmarks.foldl
          (fun m it => setEntry m it.id (createIndexItem now (.bookmark it))) idx1
        { index := idx2, lastIndexUpdate := now }

/-!
### Query engine (source lines 181-228 and 350-401)
-/

/-- The `sortBy` option. -/
inductive SortBy where
  | relevance : SortBy
  | date : SortBy
  | frequency : SortBy
deriving DecidableEq

/-- `SearchOptions` with the source's defaults (source lines 189-195). -/
structure SearchOptions where
  limit : Nat := 50
  includeHistory : Bool := true
  includeBookmarks : Bool := true
  fuzzyMatch : Bool := true
  sortBy : SortBy := .relevance
deriving DecidableEq

/-- A search result (interface `SearchResult`). -/
structure SearchResult where
  item : SourceItem
  type : ItemType
  score : ℚ
  matchedFields : List String
  snippet : Str
deriving DecidableEq

/-- One iteration of `generateSnippet`'s loop (source lines 358-367) over the
running `(bestPosition, bestScore)` pair. -/
def snippetStep (text : Str) (queryTerms : List Str) (acc : Nat × Nat)
    (term : Str) : Nat × Nat :=
  match idxOfChars term (lower text) with
  | none => acc
  | some position =>
    let score := queryTerms.length - queryTerms.findIdx (fun t => t == term)
    if score > acc.2 then (position - 50, score) else acc

/-- The whole loop of `generateSnippet`, started from `(0, 0)`. -/
def snippetFold (text : Str) (queryTerms : List Str) : Nat × Nat :=
  queryTerms.foldl (snippetStep text queryTerms) (0, 0)

/-- `generateSnippet` (source lines 350-374). -/
def generateSnippet (item : SearchIndexItem ℚ) (queryTerms : List Str) : Str :=
  let text := item.title ++ ' ' :: item.url
  let maxLength := 150
  let bestPosition := (snippetFold text queryTerms).1
  let snippet := (text.drop bestPosition).take maxLength
  let snippet := if bestPosition > 0 then "...".data ++ snippet else snippet
  if bestPosition + maxLength < text.length then snippet ++ "...".data else snippet

/-- Spec reading of the snippet scan: the found terms with their first
case-insensitive position and priority `termCount - indexOfTermInList`. -/
def snippetCandidates (text : Str) (queryTerms : List Str) : List (Nat × Nat) :=
  queryTerms.filterMap (fun term =>
    (idxOfChars term (lower text)).map
      (fun p => (p, queryTerms.length - queryTerms.findIdx (fun t => t == term))))

/-- Spec reading: the first candidate whose priority is at least every other
candidate's priority ("pick the position with the highest priority", earlier
terms winning ties). -/
def highestPriority (cands : List (Nat × Nat)) : Option (Nat × Nat) :=
  cands.find? (fun c => cands.all (fun d => d.2 ≤ c.2))

/-- The snippet as §4.4 of the spec words it: window start 50 before the
winning position clamped to 0, up to 150 characters, `"..."` on the sides
that cut text off. -/
def specSnippet (item : SearchIndexItem ℚ) (queryTerms : List Str) : Str :=
  let text := item.title ++ ' ' :: item.url
  let start :=
    match highestPriority (snippetCandidates text queryTerms) with
    | some c => c.1 - 50
    | none => 0
  let window := (text.drop start).take 150
  let window := if start > 0 then "...".data ++ window else window
  if start + 150 < text.length then window ++ "...".data else window

/-- The timestamp the `date` comparator reads (`timestamp` for history,
`dateAdded` for bookmarks). -/
def resultTime (r : SearchResult) : Int :=
  match r.item with
  | .history h => h.timestamp
  | .bookmark b => b.dateAdded

/-- The visit count the `frequency` comparator reads (bookmarks count as 1). -/
def resultFreq (r : SearchResult) : Nat :=
  match r.item with
  | .history h => h.visitCount
  | .bookmark _ => 1

/-- The `relevance` comparator `(a, b) => b.score - a.score` as a total
Boolean order. -/
def relevanceLe (a b : SearchResult) : Bool := decide (b.score ≤ a.score)

/-- `sortResults` (source lines 377-401), with JS's stable sort modelled by
`mergeSort`. -/
def sortResults (results : List SearchResult) : SortBy → List SearchResult
  | .relevance => results.mergeSort relevanceLe
  | .date => results.mergeSort (fun a b => decide (resultTime b ≤ resultTime a))
  | .frequency => results.mergeSort (fun a b => decide (resultFreq b ≤ resultFreq a))

/-- The candidate pass of `search` (source lines 200-221): type filtering,
scoring, re-fetching the original record (`lookup` models
`getOriginalItem`; `none` models a record deleted since the index build),
snippet generation. -/
def searchCandidates (index : List (SearchIndexItem ℚ))
    (lookup : String → ItemType → Option SourceItem) (queryTerms : List Str)
    (includeHistory includeBookmarks fuzzyMatch : Bool) : List SearchResult :=
  index.filterMap (fun indexItem =>
    if includeHistory = false ∧ indexItem.type = .history then none
    else if includeBookmarks = false ∧ indexItem.type = .bookmark then none
    else
      let matchResult := calculateMatch indexItem queryTerms fuzzyMatch
      if matchResult.1 > 0 then
        (lookup indexItem.id indexItem.type).map (fun originalItem =>
          { item := originalItem
            type := indexItem.type
            score := matchResult.1
            matchedFields := matchResult.2
            snippet := generateSnippet indexItem queryTerms })
      else none)

/-- `search` (source lines 181-228) over an explicit index state: empty-query
early return, tokenization, candidate scan, sort, truncation to `limit`. -/
def search (index : List (SearchIndexItem ℚ))
    (lookup : String → ItemType → Option SourceItem) (query : Str)
    (options : SearchOptions) : List SearchResult :=
  if (trim query).isEmpty then []
  else
    let queryTerms := normalizeQuery query
    let results := searchCandidates index lookup queryTerms
      options.includeHistory options.includeBookmarks options.fuzzyMatch
    (sortResults results options.sortBy).take options.limit

/-!
### Spec-side readings of §4.2 (per-term scoring) and auxiliary notions
-/

/-- "the entry's lowercase title contains the term as a substring". -/
def titleHit (item : SearchIndexItem ℚ) (term : Str) : Bool :=
  includesChars term (lower item.title)

/-- "the entry's lowercase url contains the term as a substring". -/
def urlHit (item : SearchIndexItem ℚ) (term : Str) : Bool :=
  includesChars term (lower item.url)

/-- "any keyword in the entry's keyword set contains the term as a
substring". -/
def keywordHit (item : SearchIndexItem ℚ) (term : Str) : Bool :=
  item.keywords.any (fun keyword => includesChars term keyword)

/-- The spec's per-term score from steps 1-3 alone: independent addends 3.0,
2.0 and 1.5. -/
def specBaseScore (item : SearchIndexItem ℚ) (term : Str) : ℚ :=
  (if titleHit item term then 3.0 else 0) + (if urlHit item term then 2.0 else 0) +
    (if keywordHit item term then 1.5 else 0)

/-- The spec's fuzzy-fallback guard: fuzzy matching enabled, per-term score
still exactly 0 after steps 1-3, and maximum similarity above 0.7. -/
def fuzzyFires (item : SearchIndexItem ℚ) (fuzzyMatch : Bool) (term : Str) : Prop :=
  fuzzyMatch = true ∧ specBaseScore item term = 0 ∧
    calculateFuzzyMatch term item > 0.7

instance (item : SearchIndexItem ℚ) (fuzzyMatch : Bool) (term : Str) :
    Decidable (fuzzyFires item fuzzyMatch term) := by
  unfold fuzzyFires; infer_instance

/-- The spec's whole per-term score: steps 1-3 plus `maxSimilarity * 0.5`
exactly when the fuzzy fallback fires. -/
def specTermScore (item : SearchIndexItem ℚ) (fuzzyMatch : Bool) (term : Str) : ℚ :=
  specBaseScore item term +
    (if fuzzyFires item fuzzyMatch term then calculateFuzzyMatch term item * 0.5 else 0)

/-- The field categories the spec says this term matches, in the source's
check order. -/
def specTermTags (item : SearchIndexItem ℚ) (fuzzyMatch : Bool) (term : Str) :
    List String :=
  (if titleHit item term then ["title"] else []) ++
    (if urlHit item term then ["url"] else []) ++
    (if keywordHit item term then ["keywords"] else []) ++
    (if fuzzyFires item fuzzyMatch term then ["fuzzy"] else [])

/-- The better of an earlier candidate `c` and an optional later best `r`:
the later one wins only with strictly higher priority. -/
def betterCand (c : Nat × Nat) : Option (Nat × Nat) → Nat × Nat
  | none => c
  | some d => if d.2 > c.2 then d else c

/-- Selection kernel relating the snippet loop to `highestPriority`: the
first candidate with the strictly greatest priority (a later candidate
displaces an earlier one only when strictly better). -/
def pickCand : List (Nat × Nat) → Option (Nat × Nat)
  | [] => none
  | c :: cs => some (betterCand c (pickCand cs))

/-- One conditional update of the snippet loop's `(bestPosition, bestScore)`
accumulator by an optional candidate. -/
def combineAcc (acc : Nat × Nat) : Option (Nat × Nat) → Nat × Nat
  | none => acc
  | some d => if d.2 > acc.2 then (d.1 - 50, d.2) else acc

/-- An ASCII alphanumeric character (either case, or a digit). -/
def isAsciiAlnum (c : Char) : Bool :=
  decide ((97 ≤ c.toNat ∧ c.toNat ≤ 122) ∨ (65 ≤ c.toNat ∧ c.toNat ≤ 90) ∨
    (48 ≤ c.toNat ∧ c.toNat ≤ 57))

/-- A character whose JS lowercase contains an ASCII alphanumeric: the ASCII
alphanumerics themselves, plus U+212A KELVIN SIGN (lowercases to `k`) and
U+0130 (lowercases to `i` plus a combining dot). -/
def lowersToAsciiAlnum (c : Char) : Bool :=
  isAsciiAlnum c || c.toNat = 8490 || c.toNat = 304

/-!
### Concrete fixtures used by counterexamples and witnesses
-/

/-- An index entry whose title and keywords hold `github` but no substring
match for `gihtub` (P3's scenario). -/
def fixtureGithubEntry : SearchIndexItem ℚ :=
  { id := "e1", type := .history, title := "GitHub".data, url := [],
    content := [], keywords := ["github".data], score := 1, lastUpdated := 0 }

/-- An entry matched on title, url and keywords by a single term. -/
def fixtureCoverageEntry : SearchIndexItem ℚ :=
  { id := "e2", type := .history, title := "xy".data, url := "xy".data,
    content := [], keywords := ["xy".data], score := 1, lastUpdated := 0 }

/-- A bookmark carrying 21 tags and a folder. -/
def fixtureTaggedBookmark : BookmarkItem :=
  { id := "b1", title := [], url := [], folder := "work".data,
    tags := some (List.replicate 21 "urgent".data), dateAdded := 0 }

/-- A history record backing `fixtureEntryA`. -/
def fixtureHistoryA : HistoryItem :=
  { id := "a", title := "github home".data, url := "https://github.com".data,
    visitCount := 5, timestamp := 10 }

/-- A history record backing `fixtureEntryB`. -/
def fixtureHistoryB : HistoryItem :=
  { id := "b", title := "gitlab".data, url := "https://gitlab.com".data,
    visitCount := 2, timestamp := 20 }

/-- Index entry for `fixtureHistoryA` with base score 2. -/
def fixtureEntryA : SearchIndexItem ℚ :=
  { id := "a", type := .history, title := fixtureHistoryA.title,
    url := fixtureHistoryA.url, content := [], keywords := ["github".data],
    score := 2, lastUpdated := 0 }

/-- Index entry for `fixtureHistoryB` with base score 1. -/
def fixtureEntryB : SearchIndexItem ℚ :=
  { id := "b", type := .history, title := fixtureHistoryB.title,
    url := fixtureHistoryB.url, content := [], keywords := ["gitlab".data],
    score := 1, lastUpdated := 0 }

/-- A Record Source lookup resolving the two fixture ids. -/
def fixtureLookup : String → ItemType → Option SourceItem := fun id _ =>
  if id = "a" then some (.history fixtureHistoryA)
  else if id = "b" then some (.history fixtureHistoryB)
  else none

/-- Options with `limit := 1`, fuzzy matching off, relevance order. -/
def fixtureOptions : SearchOptions :=
  { limit := 1, includeHistory := true, includeBookmarks := true,
    fuzzyMatch := false, sortBy := .relevance }

/-- A query of three KELVIN SIGN characters (U+212A): non-blank, free of
ASCII alphanumerics, yet lowercasing to `kkk`. -/
def kelvinQuery : Str := List.replicate 3 (Char.ofNat 8490)

/-- A history record whose title is `kkk`. -/
def fixtureKelvinHistory : HistoryItem :=
  { id := "k", title := "kkk".data, url := [], visitCount := 0, timestamp := 0 }

/-- Index entry for `fixtureKelvinHistory`. -/
def fixtureKelvinEntry : SearchIndexItem ℚ :=
  { id := "k", type := .history, title := "kkk".data, url := [],
    content := [], keywords := [], score := 1, lastUpdated := 0 }

/-- Lookup resolving the Kelvin fixture. -/
def fixtureKelvinLookup : String → ItemType → Option SourceItem := fun id _ =>
  if id = "k" then some (.history fixtureKelvinHistory) else none

/-- An index entry stored before a failing rebuild (any score value works;
`1` keeps it concrete). -/
noncomputable def fixtureStoredItem : SearchIndexItem ℝ :=
  { id := "a", type := .history, title := "github home".data,
    url := "https://github.com".data, content := [],
    keywords := ["github".data], score := 1, lastUpdated := 0 }

/-- An index state holding one entry, last rebuilt at time 0. -/
noncomputable def fixtureState : IndexState :=
  { index := [("a", fixtureStoredItem)], lastIndexUpdate := 0 }

/-!
## Helper lemmas
-/

theorem levDist_nil_right (xs : Str) : levDist xs [] = xs.length := by
  cases xs <;> rfl

/-- The DP recurrence of the source's matrix, as one step of `levDist`. -/
theorem levDist_cons_cons (x y : Char) (xs ys : Str) :
    levDist (x :: xs) (y :: ys) =
      min (min (levDist (x :: xs) ys + 1) (levDist xs (y :: ys) + 1))
        (levDist xs ys + (if x = y then 0 else 1)) := rfl

theorem levDist_self (a : Str) : levDist a a = 0 := by
  induction a with
  | nil => rfl
  | cons x xs ih => rw [levDist_cons_cons]; simp [ih]

theorem levDist_comm (a b : Str) : levDist a b = levDist b a := by
  induction a generalizing b with
  | nil => rw [levDist_nil_right]; rfl
  | cons x xs ih =>
    induction b with
    | nil => rw [levDist_nil_right]; rfl
    | cons y ys ih2 =>
      rw [levDist_cons_cons, levDist_cons_cons, ih (y :: ys), ih ys, ih2]
      have hc : (if x = y then 0 else 1) = (if y = x then 0 else 1) := by
        by_cases h : x = y
        · simp [h]
        · simp [h, Ne.symm h]
      rw [hc]
      omega

theorem recencyBonus_nonneg (now ts : Int) : 0 ≤ recencyBonus now ts := by
  unfold recencyBonus
  have h1 : (0 : ℝ) ≤ max 0 (1 - ((now : ℝ) - (ts : ℝ)) / (1000 * 60 * 60 * 24) / 30) :=
    le_max_left _ _
  nlinarith

theorem dedupAux_length_le (ws : List Str) : ∀ seen, (dedupAux seen ws).length ≤ ws.length := by
  induction ws with
  | nil => intro seen; simp [dedupAux]
  | cons w ws ih =>
    intro seen
    by_cases h : w ∈ seen
    · simp only [dedupAux, if_pos h]
      exact le_trans (ih seen) (Nat.le_succ _)
    · simp only [dedupAux, if_neg h, List.length_cons]
      exact Nat.succ_le_succ (ih _)

theorem extractKeywords_length_le (t u : Str) : (extractKeywords t u).length ≤ 20 := by
  unfold extractKeywords dedupKeep
  refine le_trans (dedupAux_length_le _ _) ?_
  simp only [List.length_take]
  omega


theorem pushIfNew_filter (fs : List String) (t : String) :
    pushIfNew fs t = fs ++ [t].filter (fun x => decide (x ∉ fs)) := by
  by_cases h : t ∈ fs <;> simp [pushIfNew, h]

theorem pushIfNew_chain (fs l : List String) (u : String) (hu : u ∉ l) :
    pushIfNew (fs ++ l.filter (fun x => decide (x ∉ fs))) u =
      fs ++ (l ++ [u]).filter (fun x => decide (x ∉ fs)) := by
  have hmem : u ∈ fs ++ l.filter (fun x => decide (x ∉ fs)) ↔ u ∈ fs := by
    simp only [List.mem_append, List.mem_filter, decide_eq_true_eq]
    constructor
    · rintro (h | ⟨hl, _⟩)
      · exact h
      · exact absurd hl hu
    · exact Or.inl
  rw [List.filter_append]
  by_cases h : u ∈ fs
  · rw [pushIfNew, if_pos (hmem.mpr h)]
    have he : [u].filter (fun x => decide (x ∉ fs)) = [] := by simp [h]
    rw [he, List.append_nil]
  · rw [pushIfNew, if_neg (fun hx => h (hmem.mp hx))]
    have he : [u].filter (fun x => decide (x ∉ fs)) = [u] := by simp [h]
    rw [he, List.append_assoc]

theorem termStep_spec (item : SearchIndexItem ℚ) (fuzzyMatch : Bool)
    (acc : ℚ × List String) (term : Str) :
    termStep item fuzzyMatch acc term =
      (acc.1 + specTermScore item fuzzyMatch term,
       acc.2 ++ (specTermTags item fuzzyMatch term).filter
         (fun x => decide (x ∉ acc.2))) := by
  obtain ⟨s, fs⟩ := acc
  by_cases h1 : includesChars term (lower item.title) <;>
    by_cases h2 : includesChars term (lower item.url) <;>
      by_cases h3 : item.keywords.any (fun keyword => includesChars term keyword)
  · -- title, url, keywords all hit
    simp only [termStep, h1, h2, h3, Bool.false_eq_true, if_true, if_false, ite_true,
      ite_false]
    have hneg : ¬(fuzzyMatch = true ∧ (0 : ℚ) + 3.0 + 2.0 + 1.5 = 0) := by
      rintro ⟨-, h0⟩; norm_num at h0
    rw [if_neg hneg]
    have hff : ¬ fuzzyFires item fuzzyMatch term := by
      rintro ⟨-, h0, -⟩
      simp only [specBaseScore, titleHit, urlHit, keywordHit, h1, h2, h3,
        Bool.false_eq_true, if_true, ite_true, if_false, ite_false] at h0
      norm_num at h0
    simp only [specTermScore, specTermTags, specBaseScore, titleHit, urlHit,
      keywordHit, h1, h2, h3, Bool.false_eq_true, if_true, ite_true, if_false,
      ite_false, if_neg hff, List.append_nil, List.nil_append, Prod.mk.injEq]
    constructor
    · ring
    · rw [pushIfNew_filter fs "title",
        pushIfNew_chain fs ["title"] "url" (by decide),
        pushIfNew_chain fs (["title"] ++ ["url"]) "keywords" (by decide)]
      try simp
  · -- title, url hit
    simp only [termStep, h1, h2, h3, Bool.false_eq_true, if_true, if_false, ite_true,
      ite_false]
    have hneg : ¬(fuzzyMatch = true ∧ (0 : ℚ) + 3.0 + 2.0 = 0) := by
      rintro ⟨-, h0⟩; norm_num at h0
    rw [if_neg hneg]
    have hff : ¬ fuzzyFires item fuzzyMatch term := by
      rintro ⟨-, h0, -⟩
      simp only [specBaseScore, titleHit, urlHit, keywordHit, h1, h2, h3,
        Bool.false_eq_true, if_true, ite_true, if_false, ite_false] at h0
      norm_num at h0
    simp only [specTermScore, specTermTags, specBaseScore, titleHit, urlHit,
      keywordHit, h1, h2, h3, Bool.false_eq_true, if_true, ite_true, if_false,
      ite_false, if_neg hff, List.append_nil, List.nil_append, Prod.mk.injEq]
    constructor
    · ring
    · rw [pushIfNew_filter fs "title",
        pushIfNew_chain fs ["title"] "url" (by decide)]
      try simp
  · -- title, keywords hit
    simp only [termStep, h1, h2, h3, Bool.false_eq_true, if_true, if_false, ite_true,
      ite_false]
    have hneg : ¬(fuzzyMatch = true ∧ (0 : ℚ) + 3.0 + 1.5 = 0) := by
      rintro ⟨-, h0⟩; norm_num at h0
    rw [if_neg hneg]
    have hff : ¬ fuzzyFires item fuzzyMatch term := by
      rintro ⟨-, h0, -⟩
      simp only [specBaseScore, titleHit, urlHit, keywordHit, h1, h2, h3,
        Bool.false_eq_true, if_true, ite_true, if_false, ite_false] at h0
      norm_num at h0
    simp only [specTermScore, specTermTags, specBaseScore, titleHit, urlHit,
      keywordHit, h1, h2, h3, Bool.false_eq_true, if_true, ite_true, if_false,
      ite_false, if_neg hff, List.append_nil, List.nil_append, Prod.mk.injEq]
    constructor
    · ring
    · rw [pushIfNew_filter fs "title",
        pushIfNew_chain fs ["title"] "keywords" (by decide)]
      try simp
  · -- title only
    simp only [termStep, h1, h2, h3, Bool.false_eq_true, if_true, if_false, ite_true,
      ite_false]
    have hneg : ¬(fuzzyMatch = true ∧ (0 : ℚ) + 3.0 = 0) := by
      rintro ⟨-, h0⟩; norm_num at h0
    rw [if_neg hneg]
    have hff : ¬ fuzzyFires item fuzzyMatch term := by
      rintro ⟨-, h0, -⟩
      simp only [specBaseScore, titleHit, urlHit, keywordHit, h1, h2, h3,
        Bool.false_eq_true, if_true, ite_true, if_false, ite_false] at h0
      norm_num at h0
    simp only [specTermScore, specTermTags, specBaseScore, titleHit, urlHit,
      keywordHit, h1, h2, h3, Bool.false_eq_true, if_true, ite_true, if_false,
      ite_false, if_neg hff, List.append_nil, List.nil_append, Prod.mk.injEq]
    constructor
    · ring
    · rw [pushIfNew_filter fs "title"]
      try simp
  · -- url, keywords hit
    simp only [termStep, h1, h2, h3, Bool.false_eq_true, if_true, if_false, ite_true,
      ite_false]
    have hneg : ¬(fuzzyMatch = true ∧ (0 : ℚ) + 2.0 + 1.5 = 0) := by
      rintro ⟨-, h0⟩; norm_num at h0
    rw [if_neg hneg]
    have hff : ¬ fuzzyFires item fuzzyMatch term := by
      rintro ⟨-, h0, -⟩
      simp only [specBaseScore, titleHit, urlHit, keywordHit, h1, h2, h3,
        Bool.false_eq_true, if_true, ite_true, if_false, ite_false] at h0
      norm_num at h0
    simp only [specTermScore, specTermTags, specBaseScore, titleHit, urlHit,
      keywordHit, h1, h2, h3, Bool.false_eq_true, if_true, ite_true, if_false,
      ite_false, if_neg hff, List.append_nil, List.nil_append, Prod.mk.injEq]
    constructor
    · ring
    · rw [pushIfNew_filter fs "url",
        pushIfNew_chain fs ["url"] "keywords" (by decide)]
      try simp
  · -- url only
    simp only [termStep, h1, h2, h3, Bool.false_eq_true, if_true, if_false, ite_true,
      ite_false]
    have hneg : ¬(fuzzyMatch = true ∧ (0 : ℚ) + 2.0 = 0) := by
      rintro ⟨-, h0⟩; norm_num at h0
    rw [if_neg hneg]
    have hff : ¬ fuzzyFires item fuzzyMatch term := by
      rintro ⟨-, h0, -⟩
      simp only [specBaseScore, titleHit, urlHit, keywordHit, h1, h2, h3,
        Bool.false_eq_true, if_true, ite_true, if_false, ite_false] at h0
      norm_num at h0
    simp only [specTermScore, specTermTags, specBaseScore, titleHit, urlHit,
      keywordHit, h1, h2, h3, Bool.false_eq_true, if_true, ite_true, if_false,
      ite_false, if_neg hff, List.append_nil, List.nil_append, Prod.mk.injEq]
    constructor
    · ring
    · rw [pushIfNew_filter fs "url"]
      try simp
  · -- keywords only
    simp only [termStep, h1, h2, h3, Bool.false_eq_true, if_true, if_false, ite_true,
      ite_false]
    have hneg : ¬(fuzzyMatch = true ∧ (0 : ℚ) + 1.5 = 0) := by
      rintro ⟨-, h0⟩; norm_num at h0
    rw [if_neg hneg]
    have hff : ¬ fuzzyFires item fuzzyMatch term := by
      rintro ⟨-, h0, -⟩
      simp only [specBaseScore, titleHit, urlHit, keywordHit, h1, h2, h3,
        Bool.false_eq_true, if_true, ite_true, if_false, ite_false] at h0
      norm_num at h0
    simp only [specTermScore, specTermTags, specBaseScore, titleHit, urlHit,
      keywordHit, h1, h2, h3, Bool.false_eq_true, if_true, ite_true, if_false,
      ite_false, if_neg hff, List.append_nil, List.nil_append, Prod.mk.injEq]
    constructor
    · ring
    · rw [pushIfNew_filter fs "keywords"]
      try simp
  · -- nothing hit: the fuzzy fallback is reachable
    simp only [termStep, h1, h2, h3, Bool.false_eq_true, if_true, if_false, ite_true,
      ite_false]
    have hbase : specBaseScore item term = 0 := by
      simp only [specBaseScore, titleHit, urlHit, keywordHit, h1, h2, h3,
        Bool.false_eq_true, if_false, ite_false]
      norm_num
    by_cases hf : fuzzyMatch = true
    · by_cases hs : calculateFuzzyMatch term item > 0.7
      · rw [if_pos ⟨hf, trivial⟩, if_pos hs]
        have hffT : fuzzyFires item fuzzyMatch term := ⟨hf, hbase, hs⟩
        simp only [specTermScore, specTermTags, specBaseScore, titleHit, urlHit,
          keywordHit, h1, h2, h3, Bool.false_eq_true, if_false, ite_false,
          if_pos hffT, List.nil_append, List.append_nil, Prod.mk.injEq]
        constructor
        · ring
        · rw [pushIfNew_filter fs "fuzzy"]
          try simp
      · rw [if_pos ⟨hf, trivial⟩, if_neg hs]
        have hff : ¬ fuzzyFires item fuzzyMatch term := by
          rintro ⟨-, -, hsim⟩; exact hs hsim
        simp only [specTermScore, specTermTags, specBaseScore, titleHit, urlHit,
          keywordHit, h1, h2, h3, Bool.false_eq_true, if_false, ite_false,
          if_neg hff, List.nil_append, List.append_nil, Prod.mk.injEq]
        constructor
        · ring
        · simp
    · rw [if_neg (fun hc => hf hc.1)]
      have hff : ¬ fuzzyFires item fuzzyMatch term := fun hc => hf hc.1
      simp only [specTermScore, specTermTags, specBaseScore, titleHit, urlHit,
        keywordHit, h1, h2, h3, Bool.false_eq_true, if_false, ite_false,
        if_neg hff, List.nil_append, List.append_nil, Prod.mk.injEq]
      constructor
      · ring
      · simp


theorem specTermTags_nodup (item : SearchIndexItem ℚ) (fz : Bool) (term : Str) :
    (specTermTags item fz term).Nodup := by
  unfold specTermTags
  split_ifs <;> decide

theorem nodup_append_filter (fs l : List String) (hfs : fs.Nodup) (hl : l.Nodup) :
    (fs ++ l.filter (fun x => decide (x ∉ fs))).Nodup := by
  refine List.Nodup.append hfs (hl.filter _) ?_
  intro a ha hb
  rw [List.mem_filter] at hb
  exact (decide_eq_true_eq.mp hb.2) ha

theorem foldl_termStep_nodup (item : SearchIndexItem ℚ) (fz : Bool) :
    ∀ (terms : List Str) (s : ℚ) (fs : List String), fs.Nodup →
      (List.foldl (termStep item fz) (s, fs) terms).2.Nodup := by
  intro terms
  induction terms with
  | nil => intro s fs h; simpa using h
  | cons t ts ih =>
    intro s fs h
    rw [List.foldl_cons, termStep_spec]
    exact ih _ _ (nodup_append_filter fs _ h (specTermTags_nodup item fz t))


theorem tokensAux_ws (s : Str) (h : ∀ c ∈ s, isWsChar c = true) :
    tokensAux [] s = [] := by
  induction s with
  | nil => rfl
  | cons c rest ih =>
    have hc := h c (List.mem_cons_self c rest)
    simp only [tokensAux, hc, if_true, ite_true, List.isEmpty_nil]
    exact ih (fun d hd => h d (List.mem_cons_of_mem c hd))

theorem ws_not_lowers (c : Char) (h : isWsChar c = true) :
    lowersToAsciiAlnum c = false := by
  simp only [isWsChar, Bool.or_eq_true, decide_eq_true_eq] at h
  rcases h with ((h | h) | h) | h <;> subst h <;> decide

theorem jsLower_repl_ws (c : Char) (h : lowersToAsciiAlnum c = false) :
    ∀ d ∈ jsLowerChar c,
      isWsChar (if isLowerAlnum d || isWsChar d then d else ' ') = true := by
  have h3 : (isAsciiAlnum c = false ∧ c.toNat ≠ 8490) ∧ c.toNat ≠ 304 := by
    simpa [lowersToAsciiAlnum, Bool.or_eq_false_iff, decide_eq_false_iff_not]
      using h
  have hn : ¬ ((97 ≤ c.toNat ∧ c.toNat ≤ 122) ∨ (65 ≤ c.toNat ∧ c.toNat ≤ 90) ∨
      (48 ≤ c.toNat ∧ c.toNat ≤ 57)) := by
    simpa [isAsciiAlnum] using h3.1.1
  intro d hd
  unfold jsLowerChar at hd
  split_ifs at hd with hA hK hI
  · exact absurd (Or.inr (Or.inl hA)) hn
  · exact absurd hK h3.1.2
  · exact absurd hI h3.2
  · rw [List.mem_singleton] at hd
    subst hd
    by_cases hk : (isLowerAlnum d || isWsChar d) = true
    · rw [if_pos hk]
      cases hla : isLowerAlnum d
      · simpa [hla] using hk
      · exfalso
        have := (decide_eq_true_eq).mp hla
        rcases this with h1 | h1
        · exact hn (Or.inl h1)
        · exact hn (Or.inr (Or.inr h1))
    · rw [if_neg hk]
      rfl

theorem normalizeQuery_no_lower_alnum (q : Str)
    (h : ∀ c ∈ q, lowersToAsciiAlnum c = false) : normalizeQuery q = [] := by
  unfold normalizeQuery tokensOf
  apply tokensAux_ws
  intro d hd
  simp only [replaceNonAlnum, lower, List.mem_map] at hd
  obtain ⟨e, he, rfl⟩ := hd
  rw [List.mem_flatMap] at he
  obtain ⟨c, hc, hec⟩ := he
  exact jsLower_repl_ws c (h c hc) e hec

theorem calculateMatch_nil_score (item : SearchIndexItem ℚ) (fz : Bool) :
    (calculateMatch item [] fz).1 = 0 := by
  unfold calculateMatch termLoop
  simp

theorem searchCandidates_nil_terms (index : List (SearchIndexItem ℚ))
    (lookup : String → ItemType → Option SourceItem)
    (ih ib fz : Bool) : searchCandidates index lookup [] ih ib fz = [] := by
  unfold searchCandidates
  rw [List.filterMap_eq_nil_iff]
  intro item _
  dsimp only
  rw [calculateMatch_nil_score item fz]
  split_ifs with h1 h2 h3
  · rfl
  · rfl
  · exact absurd h3 (by norm_num)
  · rfl

theorem sortResults_nil (sb : SortBy) : sortResults [] sb = [] := by
  cases sb <;> simp [sortResults]

theorem trim_nil_ws (q : Str) (h : trim q = []) : ∀ c ∈ q, isWsChar c = true := by
  unfold trim at h
  rw [List.reverse_eq_nil_iff, List.dropWhile_eq_nil_iff] at h
  intro c hc
  rw [← List.takeWhile_append_dropWhile (p := fun c => isWsChar c) (l := q)] at hc
  rcases List.mem_append.mp hc with hc | hc
  · exact List.mem_takeWhile_imp hc
  · exact h c (List.mem_reverse.mpr hc)

theorem relevanceLe_trans : ∀ a b c : SearchResult, relevanceLe a b = true →
    relevanceLe b c = true → relevanceLe a c = true := by
  intro a b c hab hbc
  simp only [relevanceLe, decide_eq_true_eq] at *
  exact le_trans hbc hab

theorem relevanceLe_total : ∀ a b : SearchResult,
    (relevanceLe a b || relevanceLe b a) = true := by
  intro a b
  simp only [relevanceLe, Bool.or_eq_true, decide_eq_true_eq]
  exact le_total _ _


theorem combineAcc_combine (acc c : Nat × Nat) (r : Option (Nat × Nat)) :
    combineAcc (combineAcc acc (some c)) r =
      combineAcc acc (some (betterCand c r)) := by
  rcases r with _ | d
  · rfl
  · rcases acc with ⟨ap, as⟩
    rcases c with ⟨cp, cs⟩
    rcases d with ⟨dp, ds⟩
    simp only [combineAcc, betterCand]
    split_ifs <;> first | rfl | (exfalso; omega)

theorem snippetStep_eq (text : Str) (qts : List Str) (acc : Nat × Nat)
    (t : Str) :
    snippetStep text qts acc t =
      combineAcc acc ((idxOfChars t (lower text)).map
        (fun p => (p, qts.length - qts.findIdx (fun x => x == t)))) := by
  unfold snippetStep combineAcc
  cases idxOfChars t (lower text) <;> rfl

theorem foldl_combine (f : Str → Option (Nat × Nat)) :
    ∀ (ts : List Str) (acc : Nat × Nat),
      List.foldl (fun a t => combineAcc a (f t)) acc ts =
        combineAcc acc (pickCand (ts.filterMap f)) := by
  intro ts
  induction ts with
  | nil => intro acc; rfl
  | cons t ts ih =>
    intro acc
    rw [List.foldl_cons, List.filterMap_cons]
    cases hf : f t with
    | none => exact ih acc
    | some c =>
      rw [ih (combineAcc acc (some c)), combineAcc_combine]
      rfl

theorem snippetFold_eq_pick (text : Str) (qts : List Str) :
    snippetFold text qts = combineAcc (0, 0) (pickCand (snippetCandidates text qts)) := by
  unfold snippetFold snippetCandidates
  have hstep : snippetStep text qts = fun a t =>
      combineAcc a ((idxOfChars t (lower text)).map
        (fun p => (p, qts.length - qts.findIdx (fun x => x == t)))) :=
    funext (fun a => funext (fun t => snippetStep_eq text qts a t))
  rw [hstep]
  exact foldl_combine _ qts (0, 0)

theorem pickCand_mem : ∀ (cs : List (Nat × Nat)) (c : Nat × Nat),
    pickCand cs = some c → c ∈ cs := by
  intro cs
  induction cs with
  | nil => intro c h; exact Option.noConfusion h
  | cons a cs ih =>
    intro c h
    injection h with h
    cases hp : pickCand cs with
    | none =>
      rw [hp] at h
      simp only [betterCand] at h
      subst h
      exact List.mem_cons_self a cs
    | some d =>
      rw [hp] at h
      simp only [betterCand] at h
      split_ifs at h
      · subst h
        exact List.mem_cons_of_mem a (ih d hp)
      · subst h
        exact List.mem_cons_self a cs

theorem find?_stronger {α : Type} (p q : α → Bool) :
    ∀ (l : List α) (a : α), (∀ x, q x = true → p x = true) →
      l.find? p = some a → q a = true → l.find? q = some a := by
  intro l
  induction l with
  | nil => intro a _ h _; exact Option.noConfusion h
  | cons x l ih =>
    intro a himp hfind hq
    by_cases hp : p x = true
    · rw [List.find?_cons_of_pos _ hp] at hfind
      injection hfind with h
      subst h
      rw [List.find?_cons_of_pos _ hq]
    · rw [List.find?_cons_of_neg _ hp] at hfind
      have hqx : ¬ q x = true := fun hh => hp (himp x hh)
      rw [List.find?_cons_of_neg _ hqx]
      exact ih a himp hfind hq

theorem pickCand_eq_highestPriority :
    ∀ cs : List (Nat × Nat), pickCand cs = highestPriority cs := by
  intro cs
  induction cs with
  | nil => rfl
  | cons c cs ih =>
    unfold highestPriority at ih ⊢
    cases hp : pickCand cs with
    | none =>
      have hnil : cs = [] := by
        cases cs with
        | nil => rfl
        | cons x xs => exact Option.noConfusion hp
      subst hnil
      simp [pickCand, betterCand]
    | some d =>
      rw [hp] at ih
      have hfind := ih.symm
      have hd_all0 := List.find?_some ih.symm
      have hd_all : cs.all (fun y => decide (y.2 ≤ d.2)) = true := hd_all0
      have hd_mem : d ∈ cs := pickCand_mem cs d hp
      have hps : pickCand (c :: cs) = some (betterCand c (some d)) := by
        show some (betterCand c (pickCand cs)) = _
        rw [hp]
      rw [hps]
      by_cases hcd : d.2 > c.2
      · have hbc : betterCand c (some d) = d := by simp [betterCand, hcd]
        rw [hbc]
        have hPc : ¬ ((c :: cs).all (fun y => decide (y.2 ≤ c.2)) = true) := by
          rw [List.all_cons, Bool.and_eq_true]
          rintro ⟨-, hall⟩
          rw [List.all_eq_true] at hall
          have := hall d hd_mem
          rw [decide_eq_true_eq] at this
          omega
        have hstep : List.find? (fun x => (c :: cs).all fun y => decide (y.2 ≤ x.2))
            (c :: cs) = List.find? (fun x => (c :: cs).all fun y => decide (y.2 ≤ x.2)) cs :=
          List.find?_cons_of_neg _ hPc
        rw [hstep]
        refine (find?_stronger (fun x => cs.all fun y => decide (y.2 ≤ x.2))
          (fun x => (c :: cs).all fun y => decide (y.2 ≤ x.2)) cs d ?_ hfind ?_).symm
        · intro x hx
          dsimp only at hx ⊢
          rw [List.all_cons, Bool.and_eq_true] at hx
          exact hx.2
        · dsimp only
          rw [List.all_cons, Bool.and_eq_true]
          refine ⟨by rw [decide_eq_true_eq]; omega, hd_all⟩
      · have hbc : betterCand c (some d) = c := by simp [betterCand, hcd]
        rw [hbc]
        have hPc : (c :: cs).all (fun y => decide (y.2 ≤ c.2)) = true := by
          rw [List.all_cons, Bool.and_eq_true]
          refine ⟨by rw [decide_eq_true_eq], ?_⟩
          rw [List.all_eq_true]
          intro y hy
          rw [List.all_eq_true] at hd_all
          have := hd_all y hy
          rw [decide_eq_true_eq] at this ⊢
          omega
        have hstep : List.find? (fun x => (c :: cs).all fun y => decide (y.2 ≤ x.2))
            (c :: cs) = some c := List.find?_cons_of_pos _ hPc
        rw [hstep]

theorem snippetCandidates_pos (text : Str) (qts : List Str) :
    ∀ c ∈ snippetCandidates text qts, 1 ≤ c.2 := by
  intro c hc
  unfold snippetCandidates at hc
  rw [List.mem_filterMap] at hc
  obtain ⟨term, hterm, hmap⟩ := hc
  cases hidx : idxOfChars term (lower text) with
  | none => rw [hidx] at hmap; exact Option.noConfusion hmap
  | some p =>
    rw [hidx] at hmap
    injection hmap with h
    subst h
    show 1 ≤ qts.length - qts.findIdx (fun x => x == term)
    have hlt : qts.findIdx (fun x => x == term) < qts.length :=
      List.findIdx_lt_length_of_exists ⟨term, hterm, by simp⟩
    omega

theorem snippetFold_fst (text : Str) (qts : List Str) :
    (snippetFold text qts).1 =
      (match highestPriority (snippetCandidates text qts) with
       | some c => c.1 - 50
       | none => 0) := by
  rw [snippetFold_eq_pick, pickCand_eq_highestPriority]
  cases hh : highestPriority (snippetCandidates text qts) with
  | none => rfl
  | some c =>
    have hc_mem : c ∈ snippetCandidates text qts := by
      unfold highestPriority at hh
      exact List.mem_of_find?_eq_some hh
    have hpos := snippetCandidates_pos text qts c hc_mem
    have h0 : 0 < c.2 := hpos
    simp [combineAcc, h0]

/-!
## Claim theorems
-/

/-- C9: the edit distance computed by the dynamic-programming algorithm
inside `levenshteinSimilarity` is symmetric, and the distance of any string
to itself is 0. -/
theorem editDistance_symm_and_refl :
    (∀ a b : Str, levDist a b = levDist b a) ∧ (∀ a : Str, levDist a a = 0) :=
  ⟨levDist_comm, levDist_self⟩

/-- C3 counterexample: the normalized Levenshtein similarity of "gihtub" and
"github" is not greater than 0.7 (it is 2/3), so the claim's threshold
assertion fails at this very input. -/
theorem gihtub_similarity_not_above_threshold :
    ¬ (levenshteinSimilarity "gihtub".data "github".data > 0.7) := by
  with_unfolding_all decide

/-- C3 (amended): the similarity of "gihtub" and "github" is 2/3, which does
not exceed the 0.7 threshold; consequently an entry whose title and keywords
hold "github" but no substring match for "gihtub" scores 0 for the query
term "gihtub" whether fuzzy matching is enabled or not. -/
theorem gihtub_fuzzy_yields_no_match :
    levenshteinSimilarity "gihtub".data "github".data = 2 / 3 ∧
    calculateFuzzyMatch "gihtub".data fixtureGithubEntry = 2 / 3 ∧
    calculateMatch fixtureGithubEntry ["gihtub".data] true = (0, []) ∧
    calculateMatch fixtureGithubEntry ["gihtub".data] false = (0, []) := by
  refine ⟨?_, ?_, ?_, ?_⟩ <;> with_unfolding_all decide

/-- C6: every derived index entry's base score is at least 1.0: the visit
bonus `ln(visitCount + 1) * 0.1` and the recency bonus
`max(0, 1 - days/30) * 0.2` are both non-negative. -/
theorem baseScore_ge_one (now : Int) (item : SourceItem) :
    1 ≤ (createIndexItem now item).score := by
  cases item with
  | history h =>
    have hlog : 0 ≤ Real.log ((h.visitCount : ℝ) + 1) :=
      Real.log_nonneg (le_add_of_nonneg_left (Nat.cast_nonneg _))
    have hlog2 : 0 ≤ Real.log ((h.visitCount : ℝ) + 1) * 0.1 :=
      mul_nonneg hlog (by norm_num)
    have hb := recencyBonus_nonneg now h.timestamp
    show (1 : ℝ) ≤ 1.0 + Real.log ((h.visitCount : ℝ) + 1) * 0.1 + recencyBonus now h.timestamp
    norm_num
    linarith
  | bookmark b =>
    have hb := recencyBonus_nonneg now b.dateAdded
    show (1 : ℝ) ≤ 1.0 + recencyBonus now b.dateAdded
    norm_num
    linarith

/-- C5 counterexample: a bookmark with an empty title and url, a folder and
21 tags yields 22 keywords, above the claimed bound of 21. -/
theorem keywords_can_exceed_21 :
    ¬ ((createIndexItem 0 (.bookmark fixtureTaggedBookmark)).keywords.length ≤ 21) := by
  with_unfolding_all decide

/-- C5 (amended): the derived entry's keyword count is at most 21 plus the
record's tag count — at most 20 extracted words, plus for bookmarks the
folder name and one keyword per tag (tags are appended without a cap). -/
theorem keywords_length_le_21_add_tags (now : Int) (item : SourceItem) :
    (createIndexItem now item).keywords.length ≤ 21 + tagCount item := by
  cases item with
  | history h =>
    have hk := extractKeywords_length_le h.title h.url
    show (extractKeywords h.title h.url).length ≤ 21 + tagCount (.history h)
    simp only [tagCount]
    omega
  | bookmark b =>
    have hk := extractKeywords_length_le b.title b.url
    show (extractKeywords b.title b.url ++ [lower b.folder] ++
        (b.tags.getD []).map lower).length ≤ 21 + tagCount (.bookmark b)
    simp only [tagCount, List.length_append, List.length_map, List.length_cons,
      List.length_nil]
    omega

/-- C2 counterexample: with one entry stored, a rebuild whose history fetch
fails leaves the index empty — the previously stored entry is gone, not
preserved as the claim states. -/
theorem failed_rebuild_clears_store :
    ("a", fixtureStoredItem) ∈ fixtureState.index ∧
    (updateIndex fixtureState 300000 false (.error ()) (.ok [])).index = [] ∧
    ("a", fixtureStoredItem) ∉ (updateIndex fixtureState 300000 false (.error ()) (.ok [])).index := by
  refine ⟨List.mem_singleton.mpr rfl, rfl, ?_⟩
  intro hmem
  rw [show (updateIndex fixtureState 300000 false (.error ()) (.ok [])).index = [] from rfl] at hmem
  exact List.not_mem_nil _ hmem

/-- C2 (amended): a failing history fetch during a rebuild that actually runs
(forced, or the 5-minute interval elapsed) is caught — `updateIndex` returns
a state normally — but the store is left cleared, not in its last-known-good
state; `lastIndexUpdate` is unchanged. -/
theorem updateIndex_history_failure (st : IndexState) (now : Int) (force : Bool)
    (bmFetch : Except Unit (List BookmarkItem))
    (h : force = true ∨ INDEX_UPDATE_INTERVAL ≤ now - st.lastIndexUpdate) :
    updateIndex st now force (.error ()) bmFetch = { st with index := [] } := by
  unfold updateIndex
  rw [if_neg]
  rintro ⟨hf, hlt⟩
  rcases h with h | h
  · rw [h] at hf; exact Bool.noConfusion hf
  · omega


/-- C1: the Scorer accumulates per term exactly as §4.2 specifies: each term
adds 3.0 for a title substring hit, 2.0 for a url hit and 1.5 for a keyword
hit, the three checks being independent; the fuzzy branch contributes
`maxSimilarity * 0.5` exactly when the term's score is still 0 after those
checks, fuzzy matching is enabled and the maximum similarity exceeds 0.7;
and each field tag is recorded at most once across the whole query. -/
theorem scorer_per_term_accumulation :
    (∀ (item : SearchIndexItem ℚ) (fuzzyMatch : Bool) (acc : ℚ × List String)
        (term : Str),
      termStep item fuzzyMatch acc term =
        (acc.1 + specTermScore item fuzzyMatch term,
         acc.2 ++ (specTermTags item fuzzyMatch term).filter
           (fun x => decide (x ∉ acc.2)))) ∧
    (∀ (item : SearchIndexItem ℚ) (queryTerms : List Str) (fuzzyMatch : Bool),
      (calculateMatch item queryTerms fuzzyMatch).2.Nodup) := by
  constructor
  · exact termStep_spec
  · intro item queryTerms fuzzyMatch
    show (termLoop item fuzzyMatch queryTerms).2.Nodup
    exact foldl_termStep_nodup item fuzzyMatch queryTerms 0 [] List.nodup_nil

/-- C4: after the per-term loop, `calculateMatch` multiplies by the entry's
base score, and exactly when more than one query term was supplied it also
multiplies by `1 + (m / n) * 0.5`, with `m` the matched-field count
accumulated across the whole query; `m / n` can exceed 1 when one term hits
several field categories. -/
theorem coverage_bonus_formula :
    (∀ (item : SearchIndexItem ℚ) (queryTerms : List Str) (fuzzyMatch : Bool),
      calculateMatch item queryTerms fuzzyMatch =
        ((termLoop item fuzzyMatch queryTerms).1 * item.score *
          (if 1 < queryTerms.length then
            1 + ((termLoop item fuzzyMatch queryTerms).2.length : ℚ) /
              (queryTerms.length : ℚ) * 0.5
          else 1),
        (termLoop item fuzzyMatch queryTerms).2)) ∧
    (∃ (item : SearchIndexItem ℚ) (queryTerms : List Str),
      1 < queryTerms.length ∧
        queryTerms.length < (calculateMatch item queryTerms true).2.length) := by
  constructor
  · intro item queryTerms fuzzyMatch
    unfold calculateMatch
    split_ifs with h
    · rfl
    · rw [mul_one]
  · refine ⟨fixtureCoverageEntry, ["xy".data, "qqq".data], by decide, ?_⟩
    with_unfolding_all decide

/-- Witness for C2 (amended): the failure branch evaluated at the concrete
fixture state. -/
theorem updateIndex_history_failure_witness :
    ((true : Bool) = true ∨ INDEX_UPDATE_INTERVAL ≤ (300000 : Int) - fixtureState.lastIndexUpdate) ∧
    updateIndex fixtureState 300000 true (.error ()) (.ok []) = { fixtureState with index := [] } :=
  ⟨Or.inl rfl, updateIndex_history_failure fixtureState 300000 true (.ok []) (Or.inl rfl)⟩

/-- C10 counterexample: the claim's hypotheses — trimmed query non-empty,
no ASCII alphanumeric characters — are satisfied by a query of three KELVIN
SIGN characters (U+212A), yet JS lowercasing turns it into the term `kkk`
and `search` returns a result from an entry titled `kkk`: the universal
empty-result claim is false at this input. -/
theorem kelvin_query_defeats_ascii_hypothesis :
    trim kelvinQuery ≠ [] ∧ (∀ c ∈ kelvinQuery, isAsciiAlnum c = false) ∧
      search [fixtureKelvinEntry] fixtureKelvinLookup kelvinQuery
        fixtureOptions ≠ [] := by
  refine ⟨by decide, by decide, ?_⟩
  with_unfolding_all decide

/-- C10 (amended): a query whose trimmed form is non-empty and which
contains no character whose JS lowercase contains an ASCII alphanumeric (no
ASCII alphanumerics, no U+212A, no U+0130) tokenizes to an empty term list,
so every entry scores 0 and `search` returns the empty sequence for every
index state and every options value. -/
theorem search_no_lower_alnum_empty (index : List (SearchIndexItem ℚ))
    (lookup : String → ItemType → Option SourceItem) (q : Str)
    (options : SearchOptions) (h1 : trim q ≠ [])
    (h2 : ∀ c ∈ q, lowersToAsciiAlnum c = false) :
    search index lookup q options = [] := by
  unfold search
  split_ifs with ht
  · rfl
  · dsimp only
    rw [normalizeQuery_no_lower_alnum q h2, searchCandidates_nil_terms,
      sortResults_nil]
    simp

/-- Witness for C10 (amended): the query `"!!!"` against a populated fixture
index. -/
theorem search_no_lower_alnum_witness :
    trim "!!!".data ≠ [] ∧ (∀ c ∈ "!!!".data, lowersToAsciiAlnum c = false) ∧
      search [fixtureEntryA, fixtureEntryB] fixtureLookup "!!!".data
        fixtureOptions = [] :=
  ⟨by decide, by decide,
    search_no_lower_alnum_empty _ _ _ _ (by decide) (by decide)⟩

/-- C7: under `sortBy = relevance`, `search` returns the scored candidates in
descending score order truncated to `limit`: at most `limit` results, sorted,
and together with the cut-off tail a permutation of all candidates, every
returned score dominating every cut-off score. -/
theorem search_relevance_top_results (index : List (SearchIndexItem ℚ))
    (lookup : String → ItemType → Option SourceItem) (query : Str)
    (options : SearchOptions) (h : options.sortBy = .relevance) :
    (search index lookup query options).length ≤ options.limit ∧
    List.Pairwise (fun a b : SearchResult => b.score ≤ a.score)
      (search index lookup query options) ∧
    (search index lookup query options ++
        (sortResults (searchCandidates index lookup (normalizeQuery query)
            options.includeHistory options.includeBookmarks options.fuzzyMatch)
          .relevance).drop options.limit).Perm
      (searchCandidates index lookup (normalizeQuery query)
        options.includeHistory options.includeBookmarks options.fuzzyMatch) ∧
    (∀ a ∈ search index lookup query options,
      ∀ b ∈ (sortResults (searchCandidates index lookup (normalizeQuery query)
          options.includeHistory options.includeBookmarks options.fuzzyMatch)
        .relevance).drop options.limit, b.score ≤ a.score) := by
  have hsearch : search index lookup query options =
      (sortResults (searchCandidates index lookup (normalizeQuery query)
        options.includeHistory options.includeBookmarks options.fuzzyMatch)
        .relevance).take options.limit := by
    unfold search
    split_ifs with ht
    · have htr : trim query = [] := by
        cases hq : trim query with
        | nil => rfl
        | cons c rest => rw [hq] at ht; exact absurd ht (by simp)
      have hq : normalizeQuery query = [] :=
        normalizeQuery_no_lower_alnum query
          (fun c hc => ws_not_lowers c (trim_nil_ws query htr c hc))
      rw [hq, searchCandidates_nil_terms, sortResults_nil]
      simp
    · dsimp only
      rw [h]
  have hms : sortResults (searchCandidates index lookup (normalizeQuery query)
      options.includeHistory options.includeBookmarks options.fuzzyMatch)
      .relevance =
      (searchCandidates index lookup (normalizeQuery query)
        options.includeHistory options.includeBookmarks options.fuzzyMatch).mergeSort
        relevanceLe := rfl
  have hperm := List.mergeSort_perm (searchCandidates index lookup
    (normalizeQuery query) options.includeHistory options.includeBookmarks
    options.fuzzyMatch) relevanceLe
  have hsorted := @List.sorted_mergeSort _ relevanceLe relevanceLe_trans
    relevanceLe_total (searchCandidates index lookup (normalizeQuery query)
      options.includeHistory options.includeBookmarks options.fuzzyMatch)
  refine ⟨?_, ?_, ?_, ?_⟩
  · rw [hsearch]
    exact List.length_take_le _ _
  · rw [hsearch, hms]
    exact ((hsorted.sublist (List.take_sublist _ _)).imp
      (fun hab => by simpa [relevanceLe] using hab))
  · rw [hsearch, hms]
    rw [List.take_append_drop]
    exact hperm
  · rw [hsearch, hms]
    intro a ha b hb
    rw [← List.take_append_drop options.limit ((searchCandidates index lookup
      (normalizeQuery query) options.includeHistory options.includeBookmarks
      options.fuzzyMatch).mergeSort relevanceLe)] at hsorted
    have hcross := (List.pairwise_append.mp hsorted).2.2 a ha b hb
    simpa [relevanceLe] using hcross

/-- Witness for C7: two fixture entries, `limit = 1`, query `"git"`. -/
theorem search_relevance_top_results_witness :
    fixtureOptions.sortBy = .relevance ∧
    ((search [fixtureEntryA, fixtureEntryB] fixtureLookup "git".data
        fixtureOptions).length ≤ fixtureOptions.limit ∧
      List.Pairwise (fun a b : SearchResult => b.score ≤ a.score)
        (search [fixtureEntryA, fixtureEntryB] fixtureLookup "git".data
          fixtureOptions) ∧
      (search [fixtureEntryA, fixtureEntryB] fixtureLookup "git".data
          fixtureOptions ++
          (sortResults (searchCandidates [fixtureEntryA, fixtureEntryB]
              fixtureLookup (normalizeQuery "git".data)
              fixtureOptions.includeHistory fixtureOptions.includeBookmarks
              fixtureOptions.fuzzyMatch) .relevance).drop
            fixtureOptions.limit).Perm
        (searchCandidates [fixtureEntryA, fixtureEntryB] fixtureLookup
          (normalizeQuery "git".data) fixtureOptions.includeHistory
          fixtureOptions.includeBookmarks fixtureOptions.fuzzyMatch) ∧
      (∀ a ∈ search [fixtureEntryA, fixtureEntryB] fixtureLookup "git".data
          fixtureOptions,
        ∀ b ∈ (sortResults (searchCandidates [fixtureEntryA, fixtureEntryB]
            fixtureLookup (normalizeQuery "git".data)
            fixtureOptions.includeHistory fixtureOptions.includeBookmarks
            fixtureOptions.fuzzyMatch) .relevance).drop fixtureOptions.limit,
          b.score ≤ a.score)) :=
  ⟨rfl, search_relevance_top_results [fixtureEntryA, fixtureEntryB]
    fixtureLookup "git".data fixtureOptions rfl⟩


/-- C8: `generateSnippet` coincides with the spec's reference definition:
over `title ++ " " ++ url`, each term found case-insensitively gets priority
`termCount - indexOfTermInQueryTermList` with earlier terms winning ties;
the window starts 50 characters before the winning occurrence clamped to 0
and spans up to 150 characters; `"..."` is prefixed exactly when the window
start is positive and suffixed exactly when the window stops short of the
end; with no term found the snippet is the up-to-150-character leading text
with no leading ellipsis. -/
theorem generateSnippet_eq_specSnippet (item : SearchIndexItem ℚ)
    (queryTerms : List Str) :
    generateSnippet item queryTerms = specSnippet item queryTerms := by
  unfold generateSnippet specSnippet
  dsimp only
  rw [snippetFold_fst]

end BrowserSearch
